import Mathlib

/-!
# Verification of the fleet telemetry backend against its specification

Shallow embedding of the repository's code, in particular
`backend/config/index.js`, together with spec-modelled definitions for the
core services whose implementation files are not part of the source tree
(VehicleStore, TelemetryRepository, rollup computation, ingestion and the
gRPC query surface).  Process-environment variables are modelled as
`Option String` (`none` for an unset variable), JavaScript numbers as `ℚ`
with `none : Option ℚ` standing for the non-finite values (`NaN`, `±∞`)
that `Number.isFinite` rejects.
-/

namespace FleetDemo

namespace Config

/-- Leading-whitespace removal on a character list (the scanning half of the
JavaScript `String.prototype.trim`). -/
def dropLeadingWs : List Char → List Char
  | [] => []
  | c :: cs => if c.isWhitespace then dropLeadingWs cs else c :: cs

/-- JavaScript `String.prototype.trim` on the character list of a string:
whitespace is removed from both ends. -/
def trimChars (l : List Char) : List Char :=
  (dropLeadingWs (dropLeadingWs l).reverse).reverse

/-- JavaScript `String.prototype.toLowerCase` on the ASCII fragment used by
the configuration tokens. -/
def toLowerChars (l : List Char) : List Char :=
  l.map (fun c => if 'A' ≤ c ∧ c ≤ 'Z' then Char.ofNat (c.toNat + 32) else c)

/-- JavaScript `String.prototype.split(sep)` for a one-character separator,
on the character list of a string: the separated fields, in order, each
possibly empty. -/
def splitOnChar (sep : Char) : List Char → List (List Char)
  | [] => [[]]
  | c :: cs =>
      match splitOnChar sep cs, decide (c = sep) with
      | rest, true => [] :: rest
      | [], false => [[c]]
      | r :: rs, false => (c :: r) :: rs

/-- Value of a decimal digit list (most significant first), or `none` if some
character is not a decimal digit.  The empty list yields `0`. -/
def decDigits (l : List Char) : Option Nat :=
  if l.all Char.isDigit then
    some (l.foldl (fun n c => 10 * n + (c.toNat - 48)) 0)
  else
    none

/-- Models the JavaScript `Number(string)` conversion on the fragment of
decimal literals used by the configuration: the string is trimmed, the empty
result converts to `0`, an optional sign followed by decimal digits with an
optional fractional part converts to the denoted rational, and anything else
is `NaN`/non-finite (`none`).  Hexadecimal, exponent and `Infinity` forms are
outside the modelled fragment. -/
def jsNumberChars (l : List Char) : Option ℚ :=
  match trimChars l with
  | [] => some 0
  | t =>
    let (sign, body) :=
      match t with
      | '-' :: rest => ((-1 : ℚ), rest)
      | '+' :: rest => ((1 : ℚ), rest)
      | l' => ((1 : ℚ), l')
    match splitOnChar '.' body with
    | [intP] =>
        if intP = [] then none
        else (decDigits intP).map (fun n => sign * (n : ℚ))
    | [intP, fracP] =>
        if intP = [] && fracP = [] then none
        else
          match decDigits intP, decDigits fracP with
          | some i, some f =>
              some (sign * ((i : ℚ) + (f : ℚ) / (10 : ℚ) ^ fracP.length))
          | _, _ => none
    | _ => none

/-- `Number(s)` for a string value `s`. -/
def jsNumber (s : String) : Option ℚ :=
  jsNumberChars s.data

/-- `Math.trunc`: rounds a rational toward zero. -/
def jsTrunc (q : ℚ) : ℤ :=
  if 0 ≤ q then ⌊q⌋ else ⌈q⌉

/-- Deduplication with JavaScript `Set` semantics: the first occurrence of
each value is kept, in insertion order. -/
def jsSetDedup (l : List ℚ) : List ℚ :=
  l.foldl (fun acc x => if x ∈ acc then acc else acc ++ [x]) []

/-- `parseBoolean` from `backend/config/index.js`: unset (`undefined`/`null`)
and empty values give the default; otherwise the trimmed lower-cased string is
tested against the recognised true/false token lists, anything unrecognised
giving the default. -/
def parseBoolean (value : Option String) (defaultValue : Bool) : Bool :=
  match value with
  | none => defaultValue
  | some s =>
      if s = "" then defaultValue
      else
        let normalized := toLowerChars (trimChars s.data)
        if normalized ∈ ["1".data, "true".data, "yes".data, "y".data, "on".data] then true
        else if normalized ∈ ["0".data, "false".data, "no".data, "n".data, "off".data] then false
        else defaultValue

/-- `parseNumber` from `backend/config/index.js`: unset and empty values give
the default, as does a value whose `Number` conversion is not finite. -/
def parseNumber (value : Option String) (defaultValue : ℚ) : ℚ :=
  match value with
  | none => defaultValue
  | some s =>
      if s = "" then defaultValue
      else (jsNumber s).getD defaultValue

/-- `parseWindowList` from `backend/config/index.js`: splits the value on
commas, converts each trimmed part with `Number`, keeps the finite positive
ones and truncates them to integers.  A falsy value (unset or empty string)
gives the empty list. -/
def parseWindowList (value : Option String) : List ℤ :=
  match value with
  | none => []
  | some s =>
      if s = "" then []
      else
        ((splitOnChar ',' s.data).map (fun part => jsNumberChars (trimChars part))).filterMap
          (fun q? =>
            match q? with
            | some q => if 0 < q then some (jsTrunc q) else none
            | none => none)

/-- The rollup window list computed in `backend/config/index.js` from the
parsed base window and the parsed extra windows:
`Array.from(new Set([defaultRollupWindow, ...extraRollupWindows]))` followed
by the finite-positive filter, `Math.trunc` and an ascending numeric sort. -/
def rollupWindowsOf (base : ℚ) (extras : List ℤ) : List ℤ :=
  List.insertionSort (· ≤ ·)
    (((jsSetDedup (base :: extras.map (fun n => Int.cast n))).filter
        (fun q => decide (0 < q))).map jsTrunc)

/-- `primaryRollupWindow` from `backend/config/index.js`:
`rollupWindows.length > 0 ? rollupWindows[0] : defaultRollupWindow`. -/
def primaryRollupWindowOf (base : ℚ) (extras : List ℤ) : ℚ :=
  match rollupWindowsOf base extras with
  | [] => base
  | w :: _ => (w : ℚ)

/-- `defaultRollupWindow`: `parseNumber(process.env.TELEMETRY_ROLLUP_WINDOW_SECONDS, 300)`. -/
def defaultRollupWindow (envBase : Option String) : ℚ :=
  parseNumber envBase 300

/-- `rollupWindows` as a function of the two environment variables
`TELEMETRY_ROLLUP_WINDOW_SECONDS` and `TELEMETRY_ROLLUP_WINDOWS`. -/
def rollupWindows (envBase envExtras : Option String) : List ℤ :=
  rollupWindowsOf (defaultRollupWindow envBase) (parseWindowList envExtras)

/-- `config.telemetryDb.rollupWindowSeconds` as a function of the two
environment variables. -/
def rollupWindowSeconds (envBase envExtras : Option String) : ℚ :=
  primaryRollupWindowOf (defaultRollupWindow envBase) (parseWindowList envExtras)

/-- The trimmed, lower-cased JavaScript `String()` form of an environment
value, as computed inside `parseBoolean` (`String(undefined)` is
`"undefined"`, which is in neither recognised token list). -/
def normalizedOf (value : Option String) : List Char :=
  toLowerChars (trimChars (match value with
   | none => "undefined".data
   | some s => s.data))

/-- The five token strings `parseBoolean` recognises as `true`. -/
def trueTokens : List (List Char) :=
  ["1".data, "true".data, "yes".data, "y".data, "on".data]

/-- The five token strings `parseBoolean` recognises as `false`. -/
def falseTokens : List (List Char) :=
  ["0".data, "false".data, "no".data, "n".data, "off".data]

end Config

namespace Core

/-- Modelled from the spec: the `TelemetrySample` record of §3 (the
implementation files under `backend/services` are not part of the source
tree).  Immutable once created; `distanceDeltaKm` is derived relative to the
vehicle's previous known position. -/
structure TelemetrySample where
  vehicleId : String
  latitude : ℚ
  longitude : ℚ
  speed : ℚ
  fuelLevel : ℚ
  engineStatus : String
  timestamp : ℤ
  distanceDeltaKm : ℚ
deriving DecidableEq, Repr

/-- Modelled from the spec: the `CacheEntry` record of §3 — the latest
sample for a vehicle together with its expiry instant (refresh time plus
TTL). -/
structure CacheEntry where
  sample : TelemetrySample
  expiresAt : ℕ
deriving DecidableEq, Repr

/-- Modelled from the spec: the `VehicleStore` of §4.2 (`vehicle-store.js` is
not part of the source tree) — a bounded TTL-evicting cache whose entries are
kept in insertion/refresh order, oldest first. -/
structure VehicleStore where
  capacity : ℕ
  ttlMs : ℕ
  entries : List (String × CacheEntry)
deriving DecidableEq, Repr

/-- An empty `VehicleStore` with the given capacity and TTL (TTL `0` disables
TTL eviction). -/
def VehicleStore.empty (capacity ttlMs : ℕ) : VehicleStore :=
  ⟨capacity, ttlMs, []⟩

/-- Whether a cache entry is still visible at instant `now`: always when TTL
eviction is disabled (`ttlMs = 0`), otherwise only before its expiry. -/
def CacheEntry.visibleAt (e : CacheEntry) (ttlMs now : ℕ) : Bool :=
  decide (ttlMs = 0) || decide (now < e.expiresAt)

/-- Modelled from the spec: `VehicleStore.put` (§4.2) — refreshes the entry
for the sample's vehicle (moving it to the most-recent position and renewing
its expiry) and evicts the oldest entries first when the capacity bound would
otherwise be exceeded. -/
def VehicleStore.put (st : VehicleStore) (s : TelemetrySample) (now : ℕ) : VehicleStore :=
  let remaining := st.entries.filter (fun e => decide (e.1 ≠ s.vehicleId))
  let appended := remaining ++ [(s.vehicleId, ⟨s, now + st.ttlMs⟩)]
  { st with entries := appended.drop (appended.length - st.capacity) }

/-- Modelled from the spec: `VehicleStore.get` (§4.2) — the entry for a
vehicle identity, with entries past their TTL excluded. -/
def VehicleStore.get (st : VehicleStore) (id : String) (now : ℕ) : Option CacheEntry :=
  match st.entries.find? (fun e => e.1 == id) with
  | some (_, e) => if e.visibleAt st.ttlMs now then some e else none
  | none => none

/-- Modelled from the spec: `VehicleStore.list` (§4.2) — all entries passing
the optional identity filter, with entries past their TTL excluded. -/
def VehicleStore.list (st : VehicleStore) (filterIds : Option (List String)) (now : ℕ) :
    List CacheEntry :=
  ((st.entries.filter (fun e =>
      match filterIds with
      | none => true
      | some ids => decide (e.1 ∈ ids))).filter
    (fun e => e.2.visibleAt st.ttlMs now)).map Prod.snd

/-- Modelled from the spec: `VehicleStore.evictExpired` (§4.2) — removes the
entries past their TTL. -/
def VehicleStore.evictExpired (st : VehicleStore) (now : ℕ) : VehicleStore :=
  { st with entries := st.entries.filter (fun e => e.2.visibleAt st.ttlMs now) }

/-- A mutating operation on the `VehicleStore` (reads do not change the
store). -/
inductive StoreOp where
  | put (s : TelemetrySample) (now : ℕ)
  | evictExpired (now : ℕ)

/-- Application of one `StoreOp`. -/
def VehicleStore.applyOp (st : VehicleStore) : StoreOp → VehicleStore
  | .put s now => st.put s now
  | .evictExpired now => st.evictExpired now

/-- Application of a sequence of `StoreOp`s, oldest first. -/
def VehicleStore.applyOps (st : VehicleStore) (ops : List StoreOp) : VehicleStore :=
  ops.foldl VehicleStore.applyOp st

/-- Modelled from the spec: the `RateTracker` of §4.3 (`message-metrics.js`
is not part of the source tree) — the retained event timestamps within the
sliding window. -/
structure RateTracker where
  windowMs : ℕ
  events : List ℤ
deriving DecidableEq, Repr

/-- Modelled from the spec: `RateTracker.record` (§4.3) — purges timestamps
older than the window and appends the new event. -/
def RateTracker.record (rt : RateTracker) (t : ℤ) : RateTracker :=
  { rt with events := (rt.events.filter (fun e => decide (t - (rt.windowMs : ℤ) < e))) ++ [t] }

/-- Modelled from the spec: the `Fanout` of §4.6 (`websocket-service.js` is
not part of the source tree) — one outbound queue per subscriber. -/
structure Fanout where
  queues : List (List TelemetrySample)
deriving DecidableEq, Repr

/-- Modelled from the spec: `Fanout.broadcast` (§4.6) — enqueues the sample
to every subscriber's queue. -/
def Fanout.broadcast (f : Fanout) (s : TelemetrySample) : Fanout :=
  ⟨f.queues.map (fun q => q ++ [s])⟩

/-- Modelled from the spec: ordering of history results by sample
timestamp (§4.4). -/
def byTimestamp (a b : TelemetrySample) : Prop :=
  a.timestamp ≤ b.timestamp

instance : DecidableRel byTimestamp :=
  fun a b => inferInstanceAs (Decidable (a.timestamp ≤ b.timestamp))

/-- Modelled from the spec: `TelemetryRepository.append` (§4.4,
`telemetry-repository.js` is not part of the source tree) — the durable
sample log is append-only. -/
def appendSample (repo : List TelemetrySample) (s : TelemetrySample) : List TelemetrySample :=
  repo ++ [s]

/-- Modelled from the spec: `TelemetryRepository.queryHistory` (§4.4) —
filters by the optional vehicle identity set and the inclusive time range,
orders by timestamp and respects the limit; an empty result is a valid
response. -/
def queryHistory (repo : List TelemetrySample) (vehicleIds : Option (List String))
    (startTime endTime : ℤ) (limit : ℕ) : List TelemetrySample :=
  (List.insertionSort byTimestamp
      (repo.filter (fun s =>
        (match vehicleIds with
         | none => true
         | some ids => decide (s.vehicleId ∈ ids)) &&
        decide (startTime ≤ s.timestamp) && decide (s.timestamp ≤ endTime)))).take limit

/-- Modelled from the spec: the rollup bucket identity
`(scope, windowSeconds, bucketStartTime)` of §3 and §4.4; `none` as scope is
the fleet-wide bucket. -/
structure RollupKey where
  scope : Option String
  windowSeconds : ℤ
  bucketStartTime : ℤ
deriving DecidableEq, Repr

/-- Modelled from the spec: the `RollupBucket` record of §3 — computed
aggregates over the samples of one bucket; a zero-sample bucket carries
`none` aggregates and `sampleCount = 0`. -/
structure RollupBucket where
  key : RollupKey
  avgSpeed : Option ℚ
  maxSpeed : Option ℚ
  totalDistanceKm : ℚ
  minFuelLevel : Option ℚ
  sampleCount : ℕ
deriving DecidableEq, Repr

/-- Whether a sample belongs to the bucket with the given key: scope match
and timestamp within `[bucketStartTime, bucketStartTime + windowSeconds)`. -/
def inBucket (k : RollupKey) (s : TelemetrySample) : Bool :=
  (match k.scope with
   | none => true
   | some v => decide (s.vehicleId = v)) &&
  decide (k.bucketStartTime ≤ s.timestamp) &&
  decide (s.timestamp < k.bucketStartTime + k.windowSeconds)

/-- Modelled from the spec: the rollup aggregation formulas of §4.5 —
average and maximum of speed, sum of `distanceDeltaKm`, minimum of
`fuelLevel` and the sample count, over the samples of the bucket. -/
def computeRollup (samples : List TelemetrySample) (k : RollupKey) : RollupBucket :=
  let sel := samples.filter (inBucket k)
  { key := k
    avgSpeed :=
      if sel.length = 0 then none
      else some ((sel.map (fun s => s.speed)).sum / (sel.length : ℚ))
    maxSpeed := (sel.map (fun s => s.speed)).max?
    totalDistanceKm := (sel.map (fun s => s.distanceDeltaKm)).sum
    minFuelLevel := (sel.map (fun s => s.fuelLevel)).min?
    sampleCount := sel.length }

/-- Modelled from the spec: `TelemetryRepository.upsertRollup` (§4.4, §4.5) —
recomputation replaces the bucket row for its key rather than accumulating
into it. -/
def upsertRollup (store : List RollupBucket) (b : RollupBucket) : List RollupBucket :=
  (store.filter (fun x => decide (x.key ≠ b.key))) ++ [b]

/-- One scheduler recomputation of the bucket for key `k` from the raw
samples, stored via `upsertRollup`. -/
def recomputeBucket (samples : List TelemetrySample) (k : RollupKey)
    (store : List RollupBucket) : List RollupBucket :=
  upsertRollup store (computeRollup samples k)

/-- The stored bucket for a key, if any. -/
def lookupRollup (store : List RollupBucket) (k : RollupKey) : Option RollupBucket :=
  store.find? (fun x => decide (x.key = k))

/-- Modelled from the spec: the raw transport message of §6 — a loosely
typed JSON payload in which every field may be absent (`speed` is
optional even in valid messages). -/
structure RawMessage where
  vehicleId : Option String
  lat : Option ℚ
  lng : Option ℚ
  timestamp : Option ℤ
  engineStatus : Option String
  fuelLevel : Option ℚ
  speed : Option ℚ
deriving DecidableEq, Repr

/-- Modelled from the spec: the rejection taxonomy of §4.1 — missing
required field, coordinates out of range, fuel outside `[0,100]`, negative
speed. -/
inductive RejectReason where
  | missingField
  | coordinatesOutOfRange
  | fuelOutOfRange
  | negativeSpeed
deriving DecidableEq, Repr

/-- A raw message validated into a strict record (§9): all required fields
present and in range, absent speed defaulting to `0`. -/
structure ValidatedMessage where
  vehicleId : String
  lat : ℚ
  lng : ℚ
  speed : ℚ
  fuelLevel : ℚ
  engineStatus : String
  timestamp : ℤ
deriving DecidableEq, Repr

/-- Modelled from the spec: ingestion validation (§4.1) — requires identity,
coordinates, timestamp, engine status and fuel level, checks coordinates
against the valid latitude/longitude ranges, fuel against `[0,100]` and
speed against `0 ≤ speed`. -/
def validate (m : RawMessage) : Except RejectReason ValidatedMessage :=
  match m.vehicleId, m.lat, m.lng, m.timestamp, m.engineStatus, m.fuelLevel with
  | some id, some lat, some lng, some ts, some es, some fuel =>
      if ¬ (-90 ≤ lat ∧ lat ≤ 90 ∧ -180 ≤ lng ∧ lng ≤ 180) then
        .error .coordinatesOutOfRange
      else if ¬ (0 ≤ fuel ∧ fuel ≤ 100) then
        .error .fuelOutOfRange
      else
        match m.speed with
        | some sp =>
            if sp < 0 then .error .negativeSpeed
            else .ok ⟨id, lat, lng, sp, fuel, es, ts⟩
        | none => .ok ⟨id, lat, lng, 0, fuel, es, ts⟩
  | _, _, _, _, _, _ => .error .missingField

/-- The downstream state touched by ingestion: cache, rate tracker, durable
log, fan-out queues, and the invalid-message counter. -/
structure BackendState where
  store : VehicleStore
  rate : RateTracker
  repo : List TelemetrySample
  fanout : Fanout
  invalidCount : ℕ
deriving DecidableEq, Repr

/-- Modelled from the spec: `Ingestor.ingest` (§4.1, `mqtt-service.js` is not
part of the source tree) — on validation failure it counts the invalid
message and mutates nothing else; on success it enriches the sample with the
distance delta relative to the vehicle's previous cached position (`0` when
none) and hands it to the store, the rate tracker, the repository and the
fan-out.  The great-circle calculation itself is an explicit parameter
`distFn` of the model. -/
def ingest (distFn : ℚ → ℚ → ℚ → ℚ → ℚ) (st : BackendState) (m : RawMessage) (now : ℕ) :
    BackendState × Except RejectReason TelemetrySample :=
  match validate m with
  | .error r => ({ st with invalidCount := st.invalidCount + 1 }, .error r)
  | .ok v =>
      let dist :=
        match st.store.get v.vehicleId now with
        | none => 0
        | some e => distFn e.sample.latitude e.sample.longitude v.lat v.lng
      let s : TelemetrySample :=
        ⟨v.vehicleId, v.lat, v.lng, v.speed, v.fuelLevel, v.engineStatus, v.timestamp, dist⟩
      ({ st with
          store := st.store.put s now
          rate := st.rate.record v.timestamp
          repo := appendSample st.repo s
          fanout := st.fanout.broadcast s },
       .ok s)

/-- A time range of a query request, start and end as epoch seconds. -/
structure TimeRange where
  startTime : ℤ
  endTime : ℤ
deriving DecidableEq, Repr

/-- The structured error codes the query surface can return. -/
inductive GrpcErrorCode where
  | invalidArgument
deriving DecidableEq, Repr

/-- Modelled from the spec: `QueryTelemetryHistory` (§4.7, `grpc-service.js`
is not part of the source tree) — rejects a range whose end is earlier than
its start as an invalid-argument condition and otherwise delegates to
`queryHistory`. -/
def queryTelemetryHistory (repo : List TelemetrySample) (vehicleIds : Option (List String))
    (range : TimeRange) (limit : ℕ) : Except GrpcErrorCode (List TelemetrySample) :=
  if range.endTime < range.startTime then .error .invalidArgument
  else .ok (queryHistory repo vehicleIds range.startTime range.endTime limit)

/-- A minimal concrete telemetry sample for a vehicle identity and a
timestamp, used in concrete instantiations of the theorems below. -/
def mkSample (id : String) (ts : ℤ) : TelemetrySample :=
  ⟨id, 0, 0, 0, 50, "idle", ts, 0⟩

/-- A concrete store with capacity 2, TTL 5 and one entry expiring at 5. -/
def demoStore : VehicleStore :=
  ⟨2, 5, [("V1", ⟨mkSample "V1" 0, 5⟩)]⟩

/-- The same concrete store with TTL eviction disabled. -/
def demoStoreNoTtl : VehicleStore :=
  ⟨2, 0, [("V1", ⟨mkSample "V1" 0, 5⟩)]⟩

/-- A concrete raw message whose fuel level `150` is outside `[0, 100]`. -/
def demoInvalidMessage : RawMessage :=
  ⟨some "V1", some 48, some 2, some 100, some "idle", some 150, none⟩

/-- A concrete backend state with one (empty-queue) fan-out subscriber. -/
def demoState : BackendState :=
  ⟨VehicleStore.empty 2 60000, ⟨60000, []⟩, [], ⟨[[]]⟩, 0⟩

end Core

attribute [local semireducible] Rat.mul Rat.add Rat.sub Rat.inv

open Config Core

/-- Membership in the `Set`-style dedup fold: an element is in the result iff
it is in the accumulator or in the remaining input. -/
theorem mem_foldl_dedup (l acc : List ℚ) (x : ℚ) :
    x ∈ l.foldl (fun acc x => if x ∈ acc then acc else acc ++ [x]) acc ↔
      x ∈ acc ∨ x ∈ l := by
  induction l generalizing acc with
  | nil => simp
  | cons a t ih =>
      simp only [List.foldl_cons, ih]
      by_cases h : a ∈ acc
      · simp only [if_pos h, List.mem_cons]
        constructor
        · rintro (hx | hx)
          · exact Or.inl hx
          · exact Or.inr (Or.inr hx)
        · rintro (hx | rfl | hx)
          · exact Or.inl hx
          · exact Or.inl h
          · exact Or.inr hx
      · simp only [if_neg h, List.mem_append, List.mem_singleton, List.mem_cons]
        tauto

/-- The `Set`-style dedup fold preserves `Nodup` of the accumulator. -/
theorem nodup_foldl_dedup (l : List ℚ) (acc : List ℚ) (hacc : acc.Nodup) :
    (l.foldl (fun acc x => if x ∈ acc then acc else acc ++ [x]) acc).Nodup := by
  induction l generalizing acc with
  | nil => simpa using hacc
  | cons a t ih =>
      simp only [List.foldl_cons]
      apply ih
      by_cases h : a ∈ acc
      · simpa [h] using hacc
      · simp [h, List.nodup_append, hacc]

/-- Membership in `jsSetDedup` coincides with membership in the input. -/
theorem jsSetDedup_mem (l : List ℚ) (x : ℚ) : x ∈ jsSetDedup l ↔ x ∈ l := by
  simpa using mem_foldl_dedup l [] x

/-- `jsSetDedup` yields a duplicate-free list. -/
theorem jsSetDedup_nodup (l : List ℚ) : (jsSetDedup l).Nodup :=
  nodup_foldl_dedup l [] List.nodup_nil

/-- `Math.trunc` is the identity on integers. -/
theorem jsTrunc_intCast (n : ℤ) : jsTrunc (n : ℚ) = n := by
  unfold jsTrunc
  split <;> simp

/-- C1 (amended): whenever the base window parsed from
`TELEMETRY_ROLLUP_WINDOW_SECONDS` is a positive integer, the configured
`rollupWindows` list is a strictly ascending (hence duplicate-free) list of
positive integers consisting exactly of the base window together with every
comma-separated entry of `TELEMETRY_ROLLUP_WINDOWS` that parses to a finite
positive number, truncated to a positive integer; in particular the base
window is a member. -/
theorem rollupWindows_posIntBase_sorted_mem (envBase envExtras : Option String)
    (n : ℤ) (hbase : defaultRollupWindow envBase = (n : ℚ)) (hpos : 0 < n) :
    (rollupWindows envBase envExtras).Sorted (· < ·) ∧
    (∀ x ∈ rollupWindows envBase envExtras, 0 < x) ∧
    n ∈ rollupWindows envBase envExtras ∧
    (∀ x : ℤ, x ∈ rollupWindows envBase envExtras ↔
      x = n ∨ (x ∈ parseWindowList envExtras ∧ 0 < x)) := by
  have hrw : rollupWindows envBase envExtras =
      List.insertionSort (· ≤ ·)
        (((jsSetDedup ((n : ℚ) ::
            (parseWindowList envExtras).map (fun m => Int.cast m))).filter
          (fun q => decide (0 < q))).map jsTrunc) := by
    rw [rollupWindows, rollupWindowsOf, hbase]
  have hint : ∀ q ∈ jsSetDedup ((n : ℚ) ::
      (parseWindowList envExtras).map (fun m => Int.cast m)), ∃ m : ℤ, q = (m : ℚ) := by
    intro q hq
    rcases List.mem_cons.1 ((jsSetDedup_mem _ q).1 hq) with rfl | hq'
    · exact ⟨n, rfl⟩
    · rcases List.mem_map.1 hq' with ⟨m, _, rfl⟩
      exact ⟨m, rfl⟩
  have hMnodup : ((((jsSetDedup ((n : ℚ) ::
      (parseWindowList envExtras).map (fun m => Int.cast m))).filter
        (fun q => decide (0 < q))).map jsTrunc)).Nodup := by
    apply List.Nodup.map_on
    · intro q1 h1 q2 h2 heq
      rcases hint q1 (List.mem_of_mem_filter h1) with ⟨m1, rfl⟩
      rcases hint q2 (List.mem_of_mem_filter h2) with ⟨m2, rfl⟩
      rw [jsTrunc_intCast, jsTrunc_intCast] at heq
      exact_mod_cast heq
    · exact (jsSetDedup_nodup _).filter _
  have hmemM : ∀ x : ℤ, (x ∈ (((jsSetDedup ((n : ℚ) ::
      (parseWindowList envExtras).map (fun m => Int.cast m))).filter
        (fun q => decide (0 < q))).map jsTrunc)) ↔
      x = n ∨ (x ∈ parseWindowList envExtras ∧ 0 < x) := by
    intro x
    constructor
    · intro hx
      rcases List.mem_map.1 hx with ⟨q, hq, rfl⟩
      have hq1 := List.mem_of_mem_filter hq
      have hq2 : (0 : ℚ) < q := by
        have := (List.mem_filter.1 hq).2
        simpa using this
      rcases List.mem_cons.1 ((jsSetDedup_mem _ q).1 hq1) with rfl | hq'
      · left
        exact jsTrunc_intCast n
      · rcases List.mem_map.1 hq' with ⟨m, hm, rfl⟩
        right
        rw [jsTrunc_intCast]
        exact ⟨hm, by exact_mod_cast hq2⟩
    · rintro (rfl | ⟨hx, hxpos⟩)
      · refine List.mem_map.2 ⟨(x : ℚ), List.mem_filter.2 ⟨?_, ?_⟩, jsTrunc_intCast x⟩
        · exact (jsSetDedup_mem _ _).2 (List.mem_cons_self _ _)
        · simpa using hpos
      · refine List.mem_map.2 ⟨(x : ℚ), List.mem_filter.2 ⟨?_, ?_⟩, jsTrunc_intCast x⟩
        · exact (jsSetDedup_mem _ _).2
            (List.mem_cons_of_mem _ (List.mem_map_of_mem _ hx))
        · simpa using hxpos
  have hnodup : (rollupWindows envBase envExtras).Nodup := by
    rw [hrw]
    exact ((List.perm_insertionSort _ _).nodup_iff).2 hMnodup
  have hsorted : (rollupWindows envBase envExtras).Sorted (· < ·) := by
    have hle : (rollupWindows envBase envExtras).Sorted (· ≤ ·) := by
      rw [hrw]
      exact List.sorted_insertionSort _ _
    exact hle.lt_of_le hnodup
  refine ⟨hsorted, ?_, ?_, ?_⟩
  · intro x hx
    rw [hrw, List.mem_insertionSort] at hx
    rcases (hmemM x).1 hx with rfl | ⟨_, h⟩
    · exact hpos
    · exact h
  · rw [hrw, List.mem_insertionSort]
    exact (hmemM n).2 (Or.inl rfl)
  · intro x
    rw [hrw, List.mem_insertionSort]
    exact hmemM x

/-- C1 (counterexample): with `TELEMETRY_ROLLUP_WINDOW_SECONDS=300.5` and
`TELEMETRY_ROLLUP_WINDOWS=300` the configured list is `[300, 300]` — neither
duplicate-free nor strictly ascending — and with
`TELEMETRY_ROLLUP_WINDOW_SECONDS=-5` the truncated base window is not a
member of the resulting list, so the claim fails for some process
environments. -/
theorem rollupWindows_counterexample :
    rollupWindows (some "300.5") (some "300") = [300, 300] ∧
    ¬ (rollupWindows (some "300.5") (some "300")).Nodup ∧
    rollupWindows (some "-5") (some "300") = [300] ∧
    jsTrunc (defaultRollupWindow (some "-5")) ∉ rollupWindows (some "-5") (some "300") := by
  refine ⟨by decide, by decide, by decide, by decide⟩

/-- C1 (witness): the amended statement applied to the default base window
(`300`) and the extra windows `900,300`. -/
theorem rollupWindows_posIntBase_witness :
    defaultRollupWindow none = ((300 : ℤ) : ℚ) ∧ (0 : ℤ) < 300 ∧
    (rollupWindows none (some "900,300")).Sorted (· < ·) ∧
    (300 : ℤ) ∈ rollupWindows none (some "900,300") := by
  have h := rollupWindows_posIntBase_sorted_mem none (some "900,300") 300
    (by decide) (by decide)
  exact ⟨by decide, by decide, h.1, h.2.2.1⟩

/-- C9: the primary rollup window `config.telemetryDb.rollupWindowSeconds`
equals the minimum element of `rollupWindows` whenever that list is
non-empty, and falls back to the raw parsed base value when the list is
empty. -/
theorem rollupWindowSeconds_min_or_fallback (envBase envExtras : Option String) :
    (rollupWindows envBase envExtras = [] →
      rollupWindowSeconds envBase envExtras = defaultRollupWindow envBase) ∧
    (rollupWindows envBase envExtras ≠ [] →
      ∃ w : ℤ, rollupWindowSeconds envBase envExtras = (w : ℚ) ∧
        w ∈ rollupWindows envBase envExtras ∧
        ∀ x ∈ rollupWindows envBase envExtras, w ≤ x) := by
  have hsorted : (rollupWindows envBase envExtras).Sorted (· ≤ ·) := by
    rw [rollupWindows, rollupWindowsOf]
    exact List.sorted_insertionSort _ _
  have hkey : rollupWindowSeconds envBase envExtras =
      (match rollupWindows envBase envExtras with
       | [] => defaultRollupWindow envBase
       | w :: _ => (w : ℚ)) := by
    rw [rollupWindowSeconds, primaryRollupWindowOf, rollupWindows]
  constructor
  · intro h
    rw [hkey, h]
  · intro h
    cases hl : rollupWindows envBase envExtras with
    | nil => exact absurd hl h
    | cons w t =>
        refine ⟨w, ?_, ?_, ?_⟩
        · rw [hkey, hl]
        · exact List.mem_cons_self _ _
        · intro x hx
          rw [hl] at hsorted
          rcases List.mem_cons.1 hx with rfl | hx'
          · exact le_refl x
          · exact List.rel_of_sorted_cons hsorted x hx'

/-- C9 (witness): with base `-5` the window list is empty and the primary
window is the raw parsed value `-5`; with everything unset the list is
`[300]` and the primary window is its minimum `300`. -/
theorem rollupWindowSeconds_min_or_fallback_witness :
    rollupWindowSeconds (some "-5") none = -5 ∧
    (∃ w : ℤ, rollupWindowSeconds none none = (w : ℚ) ∧
      w ∈ rollupWindows none none ∧ ∀ x ∈ rollupWindows none none, w ≤ x) := by
  constructor
  · exact ((rollupWindowSeconds_min_or_fallback (some "-5") none).1 (by decide)).trans
      (by decide)
  · exact (rollupWindowSeconds_min_or_fallback none none).2 (by decide)

/-- C10: `parseBoolean` is total and returns `true` on values whose trimmed
lower-cased string form is a recognised true token, `false` on the recognised
false tokens, and the given default on everything else (unset, empty and
unrecognised values included). -/
theorem parseBoolean_token_classification (v : Option String) (d : Bool) :
    (normalizedOf v ∈ trueTokens → parseBoolean v d = true) ∧
    (normalizedOf v ∈ falseTokens → parseBoolean v d = false) ∧
    (normalizedOf v ∉ trueTokens → normalizedOf v ∉ falseTokens →
      parseBoolean v d = d) := by
  cases v with
  | none =>
      refine ⟨fun h => absurd h (by decide), fun h => absurd h (by decide), fun _ _ => rfl⟩
  | some s =>
      by_cases hs : s = ""
      · subst hs
        refine ⟨fun h => absurd h (by decide), fun h => absurd h (by decide), fun _ _ => rfl⟩
      · have hred : parseBoolean (some s) d =
            (if normalizedOf (some s) ∈ trueTokens then true
             else if normalizedOf (some s) ∈ falseTokens then false else d) := by
          simp only [parseBoolean, if_neg hs, normalizedOf, trueTokens, falseTokens]
        have hdisj : ∀ x ∈ trueTokens, ∀ y ∈ falseTokens, x ≠ y := by decide
        refine ⟨fun h => ?_, fun h => ?_, fun h1 h2 => ?_⟩
        · rw [hred, if_pos h]
        · have hnot : normalizedOf (some s) ∉ trueTokens := fun h' =>
            hdisj _ h' _ h rfl
          rw [hred, if_neg hnot, if_pos h]
        · rw [hred, if_neg h1, if_neg h2]

/-- C10 (witness): `parseBoolean` at a recognised true token with whitespace
and mixed case, at a recognised false token, and at the unrecognised value
`enabled` where it returns the default. -/
theorem parseBoolean_token_classification_witness :
    parseBoolean (some " YES ") false = true ∧
    parseBoolean (some "off") true = false ∧
    parseBoolean (some "enabled") false = false := by
  refine ⟨?_, ?_, ?_⟩
  · exact (parseBoolean_token_classification (some " YES ") false).1 (by decide)
  · exact (parseBoolean_token_classification (some "off") true).2.1 (by decide)
  · exact (parseBoolean_token_classification (some "enabled") false).2.2
      (by decide) (by decide)

/-- `put` leaves at most `capacity` entries, from any starting state. -/
theorem put_length_le (st : VehicleStore) (s : TelemetrySample) (now : ℕ) :
    ((st.put s now).entries).length ≤ st.capacity := by
  simp only [VehicleStore.put, List.length_drop]
  omega

/-- A single operation keeps the entry count within the capacity bound. -/
theorem applyOp_length_le (st : VehicleStore) (op : StoreOp)
    (h : st.entries.length ≤ st.capacity) :
    ((st.applyOp op).entries).length ≤ st.capacity := by
  cases op with
  | put s now => exact put_length_le st s now
  | evictExpired now =>
      exact le_trans (List.length_filter_le _ _) h

/-- Operations do not change the configured capacity. -/
theorem applyOp_capacity (st : VehicleStore) (op : StoreOp) :
    (st.applyOp op).capacity = st.capacity := by
  cases op <;> rfl

/-- A sequence of operations keeps the entry count within the capacity
bound. -/
theorem applyOps_length_le (ops : List StoreOp) (st : VehicleStore)
    (h : st.entries.length ≤ st.capacity) :
    ((st.applyOps ops).entries).length ≤ st.capacity := by
  induction ops generalizing st with
  | nil => simpa [VehicleStore.applyOps] using h
  | cons op t ih =>
      have h1 : ((st.applyOp op).entries).length ≤ (st.applyOp op).capacity := by
        rw [applyOp_capacity]
        exact applyOp_length_le st op h
      have h2 := ih (st.applyOp op) h1
      rw [applyOp_capacity] at h2
      exact h2

/-- C2: starting from an empty store, the `VehicleStore` holds at most its
configured capacity after every sequence of operations; and with capacity 2,
inserting distinct vehicles V1, V2, V3 in order leaves exactly {V2, V3} —
the oldest entry is evicted first. -/
theorem vehicleStore_capacity_bound (C ttl : ℕ) (ops : List StoreOp) :
    ((VehicleStore.empty C ttl).applyOps ops).entries.length ≤ C ∧
    ((VehicleStore.empty 2 0).applyOps
        [StoreOp.put (mkSample "V1" 0) 0, StoreOp.put (mkSample "V2" 1) 1,
         StoreOp.put (mkSample "V3" 2) 2]).entries.map Prod.fst = ["V2", "V3"] := by
  constructor
  · exact applyOps_length_le ops (VehicleStore.empty C ttl) (by simp [VehicleStore.empty])
  · decide

/-- C3: with a TTL bound `T > 0`, an entry whose expiry instant has been
reached (it was not refreshed by `put` within `T`) is absent from the result
of every `get` and `list` call; with `T = 0`, TTL eviction is disabled and
`get`/`list` never exclude an entry on grounds of age. -/
theorem vehicleStore_ttl_visibility (st : VehicleStore) (id : String)
    (e : CacheEntry) (now : ℕ) :
    (0 < st.ttlMs → e.expiresAt ≤ now →
      st.get id now ≠ some e ∧ e ∉ st.list none now) ∧
    (st.ttlMs = 0 →
      st.get id now = (st.entries.find? (fun p => p.1 == id)).map Prod.snd ∧
      st.list none now = st.entries.map Prod.snd) := by
  have hget : st.get id now =
      (match st.entries.find? (fun p => p.1 == id) with
       | some (_, e') => if e'.visibleAt st.ttlMs now then some e' else none
       | none => none) := rfl
  constructor
  · intro hT hexp
    constructor
    · rw [hget]
      cases hfind : st.entries.find? (fun p => p.1 == id) with
      | none => simp
      | some p =>
          obtain ⟨a, b⟩ := p
          simp only
          split
          case isTrue hvis =>
            intro heq
            injection heq with heq'
            subst heq'
            revert hvis
            unfold CacheEntry.visibleAt
            simp only [Bool.or_eq_true, decide_eq_true_eq]
            intro hvis
            rcases hvis with h0 | hlt
            · omega
            · omega
          case isFalse hvis => simp
    · intro hmem
      unfold VehicleStore.list at hmem
      rcases List.mem_map.1 hmem with ⟨p, hp, hpe⟩
      have hvis := (List.mem_filter.1 hp).2
      unfold CacheEntry.visibleAt at hvis
      simp only [Bool.or_eq_true, decide_eq_true_eq] at hvis
      rw [hpe] at hvis
      rcases hvis with h0 | hlt
      · omega
      · omega
  · intro h0
    constructor
    · rw [hget]
      cases hfind : st.entries.find? (fun p => p.1 == id) with
      | none => simp
      | some p =>
          obtain ⟨a, b⟩ := p
          simp [CacheEntry.visibleAt, h0]
    · unfold VehicleStore.list
      simp [CacheEntry.visibleAt, h0]

/-- C3 (witness): the TTL theorem at a concrete expired entry (TTL 5, expiry
instant 5 reached at `now = 5`) and at the same store with TTL 0, where
`get`/`list` exclude nothing. -/
theorem vehicleStore_ttl_visibility_witness :
    (demoStore.get "V1" 5 ≠ some ⟨mkSample "V1" 0, 5⟩ ∧
      (⟨mkSample "V1" 0, 5⟩ : CacheEntry) ∉ demoStore.list none 5) ∧
    (demoStoreNoTtl.get "V1" 100 =
        (demoStoreNoTtl.entries.find? (fun p => p.1 == "V1")).map Prod.snd ∧
      demoStoreNoTtl.list none 100 = demoStoreNoTtl.entries.map Prod.snd) := by
  constructor
  · exact (vehicleStore_ttl_visibility demoStore "V1" ⟨mkSample "V1" 0, 5⟩ 5).1
      (by decide) (by decide)
  · exact (vehicleStore_ttl_visibility demoStoreNoTtl "V1" ⟨mkSample "V1" 0, 5⟩ 100).2
      (by decide)

/-- C4: appending a sample to an empty repository and querying with an
inclusive range covering its timestamp (no identity filter, positive limit)
returns exactly that sample; querying with a range excluding the timestamp
returns the empty sequence as a valid response. -/
theorem queryHistory_roundtrip (s : TelemetrySample) (startTime endTime : ℤ)
    (limit : ℕ) :
    (startTime ≤ s.timestamp → s.timestamp ≤ endTime → 1 ≤ limit →
      queryHistory (appendSample [] s) none startTime endTime limit = [s]) ∧
    (endTime < s.timestamp ∨ s.timestamp < startTime →
      queryHistory (appendSample [] s) none startTime endTime limit = []) := by
  constructor
  · intro h1 h2 hlim
    unfold queryHistory appendSample
    rw [List.nil_append]
    have hfilter : List.filter (fun t =>
        (match (none : Option (List String)) with
         | none => true
         | some ids => decide (t.vehicleId ∈ ids)) &&
        decide (startTime ≤ t.timestamp) && decide (t.timestamp ≤ endTime)) [s] = [s] := by
      simp [List.filter, h1, h2]
    rw [hfilter]
    have hsort : List.insertionSort byTimestamp [s] = [s] := rfl
    rw [hsort]
    exact List.take_of_length_le (by simpa using hlim)
  · intro h
    unfold queryHistory appendSample
    rw [List.nil_append]
    have hfilter : List.filter (fun t =>
        (match (none : Option (List String)) with
         | none => true
         | some ids => decide (t.vehicleId ∈ ids)) &&
        decide (startTime ≤ t.timestamp) && decide (t.timestamp ≤ endTime)) [s] = [] := by
      rcases h with h | h
      · have hd : decide (s.timestamp ≤ endTime) = false := by
          simp only [decide_eq_false_iff_not]
          omega
        simp [List.filter, hd]
      · have hd : decide (startTime ≤ s.timestamp) = false := by
          simp only [decide_eq_false_iff_not]
          omega
        simp [List.filter, hd]
    rw [hfilter]
    simp [List.insertionSort]

/-- C4 (witness): the round trip at a concrete sample with timestamp 100 —
the covering range `[0, 200]` returns exactly the sample and the excluding
range `[150, 200]` returns the empty sequence. -/
theorem queryHistory_roundtrip_witness :
    queryHistory (appendSample [] (mkSample "V1" 100)) none 0 200 10 =
      [mkSample "V1" 100] ∧
    queryHistory (appendSample [] (mkSample "V1" 100)) none 150 200 10 = [] := by
  constructor
  · exact (queryHistory_roundtrip (mkSample "V1" 100) 0 200 10).1
      (by decide) (by decide) (by decide)
  · exact (queryHistory_roundtrip (mkSample "V1" 100) 150 200 10).2 (Or.inr (by decide))

/-- Replacing the bucket for a key twice is the same as replacing it once. -/
theorem upsertRollup_idem (store : List RollupBucket) (b : RollupBucket) :
    upsertRollup (upsertRollup store b) b = upsertRollup store b := by
  unfold upsertRollup
  rw [List.filter_append]
  have h1 : List.filter (fun x => decide (x.key ≠ b.key)) [b] = [] := by simp
  rw [h1, List.append_nil, List.filter_filter]
  congr 1
  apply List.filter_congr
  intro x _
  cases h : decide (x.key ≠ b.key) <;> simp [h]

/-- After an upsert, looking the key up yields exactly the upserted bucket. -/
theorem lookupRollup_upsert (store : List RollupBucket) (b : RollupBucket) :
    lookupRollup (upsertRollup store b) b.key = some b := by
  unfold lookupRollup upsertRollup
  induction store with
  | nil => simp
  | cons x t ih =>
      by_cases hx : x.key = b.key
      · simp [List.filter, hx]
      · simp [List.filter, hx, List.find?]

/-- C5: rollup recomputation is idempotent — for a fixed sample set and
bucket key, a second recomputation leaves the bucket store unchanged, and the
stored bucket is exactly the one computed from the samples (the key's row is
replaced, never accumulated into), so all of {avgSpeed, maxSpeed,
totalDistanceKm, minFuelLevel, sampleCount} are identical across runs. -/
theorem rollup_recompute_idempotent (samples : List TelemetrySample)
    (k : RollupKey) (store : List RollupBucket) :
    recomputeBucket samples k (recomputeBucket samples k store) =
      recomputeBucket samples k store ∧
    lookupRollup (recomputeBucket samples k store) k =
      some (computeRollup samples k) := by
  constructor
  · exact upsertRollup_idem store (computeRollup samples k)
  · have hk : (computeRollup samples k).key = k := rfl
    have := lookupRollup_upsert store (computeRollup samples k)
    rw [hk] at this
    exact this

/-- C6: a raw message that fails ingestion validation is rejected without
mutating any downstream state — the vehicle store, rate tracker, repository
and fan-out are unchanged — while the invalid-message counter is incremented;
`ingest` is total, so the failure is never fatal. -/
theorem ingest_invalid_no_mutation (distFn : ℚ → ℚ → ℚ → ℚ → ℚ)
    (st : BackendState) (m : RawMessage) (now : ℕ) (r : RejectReason)
    (h : validate m = .error r) :
    (ingest distFn st m now).1.store = st.store ∧
    (ingest distFn st m now).1.rate = st.rate ∧
    (ingest distFn st m now).1.repo = st.repo ∧
    (ingest distFn st m now).1.fanout = st.fanout ∧
    (ingest distFn st m now).1.invalidCount = st.invalidCount + 1 ∧
    (ingest distFn st m now).2 = Except.error r := by
  unfold ingest
  rw [h]
  exact ⟨rfl, rfl, rfl, rfl, rfl, rfl⟩

/-- C6 (witness): ingesting a concrete message whose fuel level `150` is out
of range leaves every downstream component of a concrete state unchanged and
reports the rejection. -/
theorem ingest_invalid_no_mutation_witness :
    (ingest (fun _ _ _ _ => 0) demoState demoInvalidMessage 0).1.store = demoState.store ∧
    (ingest (fun _ _ _ _ => 0) demoState demoInvalidMessage 0).1.rate = demoState.rate ∧
    (ingest (fun _ _ _ _ => 0) demoState demoInvalidMessage 0).1.repo = demoState.repo ∧
    (ingest (fun _ _ _ _ => 0) demoState demoInvalidMessage 0).1.fanout = demoState.fanout ∧
    (ingest (fun _ _ _ _ => 0) demoState demoInvalidMessage 0).1.invalidCount =
      demoState.invalidCount + 1 ∧
    (ingest (fun _ _ _ _ => 0) demoState demoInvalidMessage 0).2 =
      Except.error RejectReason.fuelOutOfRange :=
  ingest_invalid_no_mutation (fun _ _ _ _ => 0) demoState demoInvalidMessage 0
    RejectReason.fuelOutOfRange rfl

/-- C7: a `QueryTelemetryHistory` request whose range end is earlier than its
start yields the structured invalid-argument error — it is never a successful
(empty) result, and the handler is total, so it never crashes. -/
theorem queryTelemetryHistory_invalid_range (repo : List TelemetrySample)
    (vehicleIds : Option (List String)) (range : TimeRange) (limit : ℕ)
    (h : range.endTime < range.startTime) :
    queryTelemetryHistory repo vehicleIds range limit =
      Except.error GrpcErrorCode.invalidArgument ∧
    ∀ res : List TelemetrySample,
      queryTelemetryHistory repo vehicleIds range limit ≠ Except.ok res := by
  have heq : queryTelemetryHistory repo vehicleIds range limit =
      Except.error GrpcErrorCode.invalidArgument := by
    unfold queryTelemetryHistory
    rw [if_pos h]
  refine ⟨heq, fun res hres => ?_⟩
  rw [heq] at hres
  exact Except.noConfusion hres

/-- C7 (witness): the invalid-range rejection at the concrete range
`[100, 50]`. -/
theorem queryTelemetryHistory_invalid_range_witness :
    queryTelemetryHistory [] none ⟨100, 50⟩ 10 =
      Except.error GrpcErrorCode.invalidArgument :=
  (queryTelemetryHistory_invalid_range [] none ⟨100, 50⟩ 10 (by decide)).1

end FleetDemo
